import Mathlib

/-!
Verification of the student-record store of the repository
(`src/student_project/student_manager.py` and its route layer
`src/student_project/main.py`) against its natural-language specification.

The store persists a JSON document `{"students": [...]}`; every operation
re-reads the document, transforms the list, and (for mutations) re-writes it.
We shallow-embed the code:

* JSON values are the inductive `JVal`; a Python dict is an association list
  `Obj` with Python's dict semantics (`Obj.get` = key lookup, `Obj.set` =
  assignment that overwrites in place or appends at the end).
* A Python exception raised inside a `try` body is an `Except.error`; the
  surrounding `except` clauses turn it into the benign value the code
  returns, so every embedded operation is a total function.
* A write to the backing file is modelled by the pair an operation returns:
  the second component is `some l` when `save_students l` was called (the
  write request), `none` when no write was attempted.  A Boolean `saveOk`
  parameter says whether `save_students` succeeds (returns `True`); when it
  is `false` the write request is not persisted.
* Records drawn from a well-formed collection are the structure `StudentR`,
  mirroring the source's `Student` class (`id`, `name`, `age`, `grade`,
  `subjects`).  Operations whose claims quantify over well-formed
  collections (`update_student`, `filter_by_age`, `get_statistics`,
  `search_by_name`) are embedded over `List StudentR`; the operations whose
  behaviour on dynamic data matters (`load_students`, `add_students`,
  `delete_student`, `get_by_id`) are embedded over dynamic records `Obj`.
* Python's `round(x, 2)` is modelled as exact round-half-to-even at two
  decimal places over `ℚ` (the idealisation the spec itself uses; the
  binary floating-point representation of the intermediate quotient is not
  modelled).
-/

/-- A JSON value as manipulated by the Python code. -/
inductive JVal where
  | null : JVal
  | jint : Int → JVal
  | jstr : String → JVal
  | jarr : List JVal → JVal
  | jobj : List (String × JVal) → JVal
deriving Repr

mutual

/-- Structural equality of JSON values (Python `==` on the fragment we model:
no numeric coercions arise because `JVal` has a single numeric constructor). -/
def JVal.beq : JVal → JVal → Bool
  | .null, .null => true
  | .jint a, .jint b => a == b
  | .jstr a, .jstr b => a == b
  | .jarr a, .jarr b => JVal.beqArr a b
  | .jobj a, .jobj b => JVal.beqObj a b
  | _, _ => false

/-- Elementwise equality of JSON arrays. -/
def JVal.beqArr : List JVal → List JVal → Bool
  | [], [] => true
  | x :: xs, y :: ys => JVal.beq x y && JVal.beqArr xs ys
  | _, _ => false

/-- Elementwise equality of JSON object field lists. -/
def JVal.beqObj : List (String × JVal) → List (String × JVal) → Bool
  | [], [] => true
  | (k, v) :: xs, (k2, v2) :: ys => k == k2 && JVal.beq v v2 && JVal.beqObj xs ys
  | _, _ => false

end

mutual

/-- `JVal.beq` decides equality (infrastructure for the `DecidableEq`
instance below). -/
def JVal.beq_iff : ∀ (a b : JVal), JVal.beq a b = true ↔ a = b
  | .null, b => by cases b <;> simp [JVal.beq]
  | .jint a, b => by cases b <;> simp [JVal.beq]
  | .jstr a, b => by cases b <;> simp [JVal.beq]
  | .jarr a, b => by
      cases b <;> simp [JVal.beq]
      exact JVal.beqArr_iff a _
  | .jobj a, b => by
      cases b <;> simp [JVal.beq]
      exact JVal.beqObj_iff a _

/-- `JVal.beqArr` decides equality of JSON arrays. -/
def JVal.beqArr_iff : ∀ (a b : List JVal), JVal.beqArr a b = true ↔ a = b
  | [], b => by cases b <;> simp [JVal.beqArr]
  | x :: xs, b => by
      cases b with
      | nil => simp [JVal.beqArr]
      | cons y ys => simp [JVal.beqArr, JVal.beq_iff x y, JVal.beqArr_iff xs ys]

/-- `JVal.beqObj` decides equality of JSON object field lists. -/
def JVal.beqObj_iff : ∀ (a b : List (String × JVal)), JVal.beqObj a b = true ↔ a = b
  | [], b => by cases b <;> simp [JVal.beqObj]
  | (k, v) :: xs, b => by
      cases b with
      | nil => simp [JVal.beqObj]
      | cons y ys =>
          obtain ⟨k2, v2⟩ := y
          simp [JVal.beqObj, JVal.beq_iff v v2, JVal.beqObj_iff xs ys, and_assoc]

end

instance : DecidableEq JVal := fun a b =>
  decidable_of_iff (JVal.beq a b = true) (JVal.beq_iff a b)

/-- A Python dict with JSON values: an association list whose keys are unique
(Python's dict invariant; `get` and `set` below are dict lookup and
assignment under it). -/
abbrev Obj := List (String × JVal)

/-- Python dict lookup `d[k]`: the binding of the key, if present. -/
def Obj.get (o : Obj) (k : String) : Option JVal :=
  match o with
  | [] => none
  | (k', v) :: rest => if k' = k then some v else Obj.get rest k

/-- Python dict assignment `d[k] = v`: overwrite an existing binding in
place, else append the new key at the end (insertion order). -/
def Obj.set (o : Obj) (k : String) (v : JVal) : Obj :=
  match o with
  | [] => [(k, v)]
  | (k', v') :: rest => if k' = k then (k, v) :: rest else (k', v') :: Obj.set rest k v

/-- A student record of a well-formed collection, mirroring the source's
`Student` class. -/
structure StudentR where
  id : Int
  name : String
  age : Int
  grade : String
  subjects : List String
deriving DecidableEq, Repr

namespace StudentManager

/-! ### `load_students` (`student_manager.py`, lines 32–53)

The backing JSON file is modelled by `JDoc`: it can be absent
(`FileNotFoundError`), present but not valid JSON (`json.JSONDecodeError`),
or parse to a JSON value.  `load_students` returns `data['students']`
(whatever JSON value that is) on success, and the Python empty list on each
error path, with the diagnostic printed by the corresponding `except`
clause.  Indexing a parsed non-object with `['students']` raises a
`TypeError`, caught by the final generic `except` clause. -/

/-- The state of the backing document. -/
inductive JDoc where
  | absent : JDoc
  | unparsable : JDoc
  | parsed : JVal → JDoc
deriving DecidableEq, Repr

/-- The diagnostic printed by `load_students`, one per `except` clause. -/
inductive LoadDiag where
  | ok : LoadDiag
  | fileNotFound : LoadDiag
  | invalidJson : LoadDiag
  | missingStudentsKey : LoadDiag
  | unexpected : LoadDiag
deriving DecidableEq, Repr

/-- `load_students`: the JSON value the caller receives and the diagnostic
printed.  Every path returns a value — no exception leaves the function. -/
def load_students (doc : JDoc) : JVal × LoadDiag :=
  match doc with
  | .absent => (JVal.jarr [], .fileNotFound)
  | .unparsable => (JVal.jarr [], .invalidJson)
  | .parsed (JVal.jobj fields) =>
      match Obj.get fields "students" with
      | some v => (v, .ok)
      | none => (JVal.jarr [], .missingStudentsKey)
  | .parsed _ => (JVal.jarr [], .unexpected)

/-! ### Dynamic-record helpers

A Python list comprehension whose predicate may raise aborts at the first
raise; the enclosing `try` turns that into the operation's benign result. -/

/-- `[x for x in l if p x]` where `p` may raise. -/
def filterE {α : Type} (p : α → Except Unit Bool) : List α → Except Unit (List α)
  | [] => .ok []
  | x :: xs => do
      let b ← p x
      let rest ← filterE p xs
      pure (if b then x :: rest else rest)

/-- Python `v == n` for an int `n`: true iff `v` is that int (no other
JSON value of our fragment compares equal to an int). -/
def jeqInt (v : JVal) (n : Int) : Bool :=
  match v with
  | JVal.jint m => m == n
  | _ => false

/-- Python `s['id'] == student_id` on a dynamic record: `KeyError` when the
key is absent; a value that is not the int `student_id` compares unequal. -/
def pyIdEq (s : Obj) (sid : Int) : Except Unit Bool :=
  match s.get "id" with
  | none => .error ()
  | some v => .ok (jeqInt v sid)

/-- Python `s['id'] != student_id` on a dynamic record. -/
def pyIdNe (s : Obj) (sid : Int) : Except Unit Bool :=
  match s.get "id" with
  | none => .error ()
  | some v => .ok (!jeqInt v sid)

/-! ### `get_by_id` (lines 73–82) and `delete_student` (lines 151–164) -/

/-- `get_by_id`: first record whose `id` equals `student_id`, `None` when
there is no match or the comprehension raises (caught by the `except`). -/
def get_by_id (students : List Obj) (sid : Int) : Option Obj :=
  match filterE (fun s => pyIdEq s sid) students with
  | .error _ => none
  | .ok result => result.head?

/-- `delete_student`: filter out the matching id; call `save_students` on
the filtered list iff it is strictly shorter, returning what `save_students`
returns; on a raised comprehension or no removal, return `False` with no
write.  Result: (returned Boolean, write request passed to `save_students`
if one was made). -/
def delete_student (saveOk : Bool) (students : List Obj) (sid : Int) :
    Bool × Option (List Obj) :=
  match filterE (fun s => pyIdNe s sid) students with
  | .error _ => (false, none)
  | .ok filtered =>
      if filtered.length < students.length then (saveOk, some filtered)
      else (false, none)

/-! ### `add_students` (lines 104–127)

Validation checks only key presence (`field not in student_data`); the new
id is `max([s['id'] for s in students]) + 1` on a non-empty collection, `1`
otherwise.  A record without an `'id'` key raises `KeyError`; a non-int id
makes `max(...) + 1` raise a `TypeError`; both are caught by the generic
`except`, returning `None` with no write. -/

/-- The required fields checked by `add_students`. -/
def required_fields : List String := ["name", "age", "grade", "subjects"]

/-- `[s['id'] for s in students]`, requiring every id to be an int (any
other shape raises in `max(...) + 1`). -/
def idsOf : List Obj → Except Unit (List Int)
  | [] => .ok []
  | s :: rest =>
      match s.get "id" with
      | some (JVal.jint n) => (idsOf rest).map (n :: ·)
      | _ => .error ()

/-- `max([s['id'] for s in students]) + 1 if students else 1`. -/
def newId (students : List Obj) : Except Unit Int :=
  match students with
  | [] => .ok 1
  | _ => do
      let ids ← idsOf students
      pure ((ids.foldl max (ids.headD 0)) + 1)

/-- The exceptions `add_students` can raise internally. -/
inductive AddErr where
  | missingField : String → AddErr
  | idError : AddErr
deriving DecidableEq, Repr

/-- The `try` body of `add_students` up to the `save_students` call:
validation, id allocation, `student_data['id'] = new_id`, append. -/
def add_core (students : List Obj) (student_data : Obj) :
    Except AddErr (Obj × List Obj) :=
  match required_fields.find? (fun f => (student_data.get f).isNone) with
  | some f => .error (.missingField f)
  | none =>
      match newId students with
      | .error _ => .error .idError
      | .ok new_id =>
          let data' := student_data.set "id" (JVal.jint new_id)
          .ok (data', students ++ [data'])

/-- `add_students`: on an internal exception return `None` with no write;
otherwise call `save_students` on the appended list and return the new
record iff the save succeeded. -/
def add_students (saveOk : Bool) (students : List Obj) (student_data : Obj) :
    Option Obj × Option (List Obj) :=
  match add_core students student_data with
  | .error _ => (none, none)
  | .ok (data', students') =>
      (if saveOk then some data' else none, some students')

/-! ### `update_student` (lines 129–148) with the route layer's payload

The route `update_student` in `src/student_project/main.py` builds
`update_data = {k: v for k, v in student.model_dump().items() if v is not None}`
from the pydantic model `studentUpdate` (all four fields optional), so a
field that is absent or `null` in the request never reaches the dict merge.
The manager scans for the first record with the given id, merges the
provided fields (`students[i].update(update_data)`), forces
`students[i]['id'] = student_id`, saves, and returns the updated record;
`None` with no write when the id is not found. -/

/-- The partial-update payload (pydantic model `studentUpdate` of
`src/student_project/main.py`): each field is either absent/`null`
(`none`) or provided. -/
structure studentUpdate where
  name : Option String
  age : Option Int
  grade : Option String
  subjects : Option (List String)
deriving DecidableEq, Repr

/-- Effect on one stored record of `students[i].update(update_data)`
followed by `students[i]['id'] = student_id`, where `update_data` holds
exactly the non-null fields of the payload. -/
def apply_update (s : StudentR) (sid : Int) (u : studentUpdate) : StudentR :=
  ⟨sid, u.name.getD s.name, u.age.getD s.age, u.grade.getD s.grade,
    u.subjects.getD s.subjects⟩

/-- `update_student`: first matching record is merged and the whole list
saved; id not found means `None` and no write.  Result: (returned record,
write request passed to `save_students` if one was made). -/
def update_student (saveOk : Bool) (students : List StudentR) (sid : Int)
    (u : studentUpdate) : Option StudentR × Option (List StudentR) :=
  match students with
  | [] => (none, none)
  | s :: rest =>
      if s.id = sid then
        let s' := apply_update s sid u
        (if saveOk then some s' else none, some (s' :: rest))
      else
        let (r, w) := update_student saveOk rest sid u
        (r, w.map (s :: ·))

/-! ### `filter_by_age` (lines 93–102) -/

/-- Python truthiness of the optional `max_age` argument: `None` and `0`
are both falsy. -/
def truthy (o : Option Int) : Bool :=
  match o with
  | none => false
  | some n => n != 0

/-- `filter_by_age`: both bounds when `max_age` is truthy, lower bound
only otherwise. -/
def filter_by_age (students : List StudentR) (min_age : Int)
    (max_age : Option Int) : List StudentR :=
  if truthy max_age then
    students.filter (fun s => decide (min_age ≤ s.age) && decide (s.age ≤ max_age.getD 0))
  else
    students.filter (fun s => decide (min_age ≤ s.age))

/-! ### `search_by_name`

`src/student_project/main.py` (route `search_students`, line 83) calls
`manager.search_by_name(name)`, but no file of the repository defines that
method. -/

/-- Does the character list start with the given needle?  (`needle` second
argument; an empty needle always matches.) -/
def startsWith : List Char → List Char → Bool
  | _, [] => true
  | [], _ :: _ => false
  | a :: as, b :: bs => a == b && startsWith as bs

/-- Python's substring test `needle in hay` on character lists. -/
def containsSub (needle : List Char) : List Char → Bool
  | [] => needle.isEmpty
  | a :: t => startsWith (a :: t) needle || containsSub needle t

/-- Python `s.lower()` on the character list of a string (each character
lowercased). -/
def lowerStr (s : String) : List Char := s.data.map Char.toLower

/-- Modelled from the spec: `StudentManager.search_by_name` is called by
the route `search_students` but is missing from the repository's sources;
per the spec it performs a case-insensitive substring match on `name` and
returns all matches in storage order, mirroring
`query.lower() in product['name'].lower()` of the sibling search feature
`search_items` in `src/main.py`. -/
def search_by_name (students : List StudentR) (query : String) : List StudentR :=
  students.filter (fun s => containsSub (lowerStr query) (lowerStr s.name))

/-! ### `get_statistics` (lines 167–205) -/

/-- The aggregate returned by `get_statistics`.  `grade_distribution` is a
Python dict (association list in first-occurrence order). -/
structure Stats where
  total_students : Nat
  average_age : ℚ
  grade_distribution : List (String × Nat)
  unique_subjects : List String
deriving DecidableEq, Repr

/-- One step of the grade-count loop:
`grade_count[grade] = grade_count.get(grade, 0) + 1` under dict semantics. -/
def bump (m : List (String × Nat)) (g : String) : List (String × Nat) :=
  match m with
  | [] => [(g, 1)]
  | (k, v) :: rest => if k = g then (k, v + 1) :: rest else (k, v) :: bump rest g

/-- The grade-distribution dict built by the loop over the students. -/
def grade_count (students : List StudentR) : List (String × Nat) :=
  students.foldl (fun m s => bump m s.grade) []

/-- Dict lookup in a grade-distribution association list. -/
def lookupN (m : List (String × Nat)) (k : String) : Option Nat :=
  match m with
  | [] => none
  | (k', v) :: rest => if k' = k then some v else lookupN rest k

/-- Lexicographic comparison of character lists by code point: the order
Python's `sorted` applies to strings. -/
def charsLe : List Char → List Char → Bool
  | [], _ => true
  | _ :: _, [] => false
  | a :: as, b :: bs =>
      if a.toNat < b.toNat then true
      else if b.toNat < a.toNat then false
      else charsLe as bs

/-- The string order used by `sorted(...)`: lexicographic by code point. -/
def strLe (a b : String) : Prop := charsLe a.data b.data = true

instance : DecidableRel strLe := fun a b => instDecidableEqBool (charsLe a.data b.data) true

/-- Python's `round` to an integer: round half to even. -/
def roundHalfEven (x : ℚ) : Int :=
  let f := ⌊x⌋
  if x - f < 1/2 then f
  else if 1/2 < x - f then f + 1
  else if f % 2 = 0 then f else f + 1

/-- `round(x, 2)`: round half to even at two decimal places (exactly, over
`ℚ`; the float representation is not modelled). -/
def round2 (x : ℚ) : ℚ := (roundHalfEven (x * 100) : ℚ) / 100

/-- `get_statistics`: the all-zero/empty shape on an empty collection,
else count, rounded mean age, grade distribution, and the sorted set of
all subjects. -/
def get_statistics (students : List StudentR) : Stats :=
  if students.isEmpty then ⟨0, 0, [], []⟩
  else
    ⟨students.length,
     round2 (((students.map (·.age)).sum : ℚ) / (students.length : ℚ)),
     grade_count students,
     List.insertionSort strLe ((students.map (·.subjects)).flatten.dedup)⟩

end StudentManager

/-! ## Helper lemmas -/

theorem Obj.get_set_self (o : Obj) (k : String) (v : JVal) :
    (o.set k v).get k = some v := by
  induction o with
  | nil => simp [Obj.set, Obj.get]
  | cons hd tl ih =>
      obtain ⟨k2, v2⟩ := hd
      by_cases h : k2 = k <;> simp [Obj.set, Obj.get, h, ih]

theorem Obj.get_set_ne (o : Obj) (k k' : String) (v : JVal) (h : k ≠ k') :
    (o.set k v).get k' = o.get k' := by
  induction o with
  | nil => simp [Obj.set, Obj.get, h]
  | cons hd tl ih =>
      obtain ⟨k2, v2⟩ := hd
      by_cases h2 : k2 = k <;> by_cases h3 : k2 = k' <;>
        simp_all [Obj.set, Obj.get]

namespace StudentManager

theorem exceptBind_ok {ε α β : Type} (a : α) (f : α → Except ε β) :
    (Except.ok a : Except ε α) >>= f = f a := rfl

theorem exceptBind_error {ε α β : Type} (e : ε) (f : α → Except ε β) :
    (Except.error e : Except ε α) >>= f = Except.error e := rfl

theorem exceptMap_ok {ε α β : Type} (a : α) (f : α → β) :
    f <$> (Except.ok a : Except ε α) = Except.ok (f a) := rfl

theorem exceptMap_error {ε α β : Type} (e : ε) (f : α → β) :
    f <$> (Except.error e : Except ε α) = Except.error e := rfl

theorem filterE_eq_filter {α : Type} (p : α → Except Unit Bool) (q : α → Bool)
    (l : List α) (h : ∀ x ∈ l, p x = .ok (q x)) :
    filterE p l = .ok (l.filter q) := by
  induction l with
  | nil => simp [filterE]
  | cons x xs ih =>
      have hx := h x (by simp)
      have ih' := ih (fun y hy => h y (by simp [hy]))
      by_cases hq : q x <;>
        simp [filterE, hx, ih', hq, List.filter_cons, exceptBind_ok, exceptBind_error]

theorem filterE_keep {α : Type} (p : α → Except Unit Bool) (l : List α)
    (h : ∀ x ∈ l, p x = .error () ∨ p x = .ok true) :
    filterE p l = .error () ∨ filterE p l = .ok l := by
  induction l with
  | nil => right; simp [filterE]
  | cons x xs ih =>
      rcases h x (by simp) with hx | hx
      · left; simp [filterE, hx, exceptBind_error]
      · rcases ih (fun y hy => h y (by simp [hy])) with hxs | hxs
        · left; simp [filterE, hx, hxs, exceptBind_ok, exceptBind_error]
        · right; simp [filterE, hx, hxs, exceptBind_ok]

theorem update_student_not_found (saveOk : Bool) (l : List StudentR) (sid : Int)
    (u : studentUpdate) (h : ∀ s ∈ l, s.id ≠ sid) :
    update_student saveOk l sid u = (none, none) := by
  induction l with
  | nil => simp [update_student]
  | cons s rest ih =>
      have hs : s.id ≠ sid := h s (by simp)
      have ih' := ih (fun t ht => h t (by simp [ht]))
      simp [update_student, hs, ih']

theorem update_student_found (saveOk : Bool) (l₁ l₂ : List StudentR) (r : StudentR)
    (sid : Int) (u : studentUpdate) (hr : r.id = sid) (h₁ : ∀ s ∈ l₁, s.id ≠ sid) :
    update_student saveOk (l₁ ++ r :: l₂) sid u =
      (if saveOk then some (apply_update r sid u) else none,
       some (l₁ ++ apply_update r sid u :: l₂)) := by
  induction l₁ with
  | nil => simp [update_student, hr]
  | cons s rest ih =>
      have hs : s.id ≠ sid := h₁ s (by simp)
      have ih' := ih (fun t ht => h₁ t (by simp [ht]))
      simp [update_student, hs, ih']

theorem update_student_saveFail (l : List StudentR) (sid : Int) (u : studentUpdate) :
    (update_student false l sid u).1 = none := by
  induction l with
  | nil => simp [update_student]
  | cons s rest ih =>
      by_cases hs : s.id = sid <;> simp [update_student, hs, ih]

end StudentManager

namespace StudentManager

theorem le_foldl_max (l : List Int) (init : Int) :
    init ≤ l.foldl max init ∧ ∀ x ∈ l, x ≤ l.foldl max init := by
  induction l generalizing init with
  | nil => simp
  | cons y ys ih =>
      obtain ⟨h1, h2⟩ := ih (max init y)
      refine ⟨le_trans (le_max_left _ _) h1, ?_⟩
      intro x hx
      rcases List.mem_cons.mp hx with rfl | hx
      · exact le_trans (le_max_right init x) h1
      · exact h2 x hx

theorem idsOf_mem (l : List Obj) (ids : List Int) (h : idsOf l = .ok ids) :
    ∀ s ∈ l, ∀ n : Int, s.get "id" = some (JVal.jint n) → n ∈ ids := by
  induction l generalizing ids with
  | nil => intro s hs; simp at hs
  | cons t rest ih =>
      intro s hs n hn
      rw [idsOf] at h
      cases hget : t.get "id" with
      | none => rw [hget] at h; cases h
      | some v =>
          rw [hget] at h
          cases v with
          | jint m =>
              cases hrest : idsOf rest with
              | error e => rw [hrest] at h; cases h
              | ok ids' =>
                  rw [hrest] at h
                  simp only [Except.map] at h
                  cases h
                  rcases List.mem_cons.mp hs with rfl | hs'
                  · rw [hget] at hn
                    cases hn
                    exact List.mem_cons_self _ _
                  · exact List.mem_cons_of_mem _ (ih ids' hrest s hs' n hn)
          | null => cases h
          | jstr a => cases h
          | jarr a => cases h
          | jobj a => cases h

theorem newId_ok (l : List Obj) (ids : List Int) (h : idsOf l = .ok ids) :
    newId l = .ok (if l.isEmpty then 1 else ids.foldl max (ids.headD 0) + 1) := by
  cases l with
  | nil =>
      cases h
      simp [newId]
  | cons s rest =>
      simp [newId, h, exceptBind_ok, List.isEmpty]

theorem add_core_ok (students : List Obj) (data : Obj) (ids : List Int)
    (hids : idsOf students = .ok ids)
    (hpres : ∀ f ∈ required_fields, (data.get f).isSome) :
    add_core students data =
      .ok (data.set "id"
            (JVal.jint (if students.isEmpty then 1 else ids.foldl max (ids.headD 0) + 1)),
           students ++
             [data.set "id"
               (JVal.jint (if students.isEmpty then 1 else ids.foldl max (ids.headD 0) + 1))]) := by
  have hfind : required_fields.find? (fun f => (data.get f).isNone) = none := by
    rw [List.find?_eq_none]
    intro f hf
    have := hpres f hf
    simp [Option.isNone_iff_eq_none]
    rcases Option.isSome_iff_exists.mp this with ⟨v, hv⟩
    simp [hv]
  rw [add_core, hfind, newId_ok students ids hids]

theorem add_core_missing (students : List Obj) (data : Obj)
    (h : ∃ f ∈ required_fields, data.get f = none) :
    ∃ f, add_core students data = .error (.missingField f) := by
  rw [add_core]
  cases hfind : required_fields.find? (fun f => (data.get f).isNone) with
  | some f => exact ⟨f, rfl⟩
  | none =>
      exfalso
      rcases h with ⟨f, hf, hnone⟩
      have := List.find?_eq_none.mp hfind f hf
      simp [hnone] at this

end StudentManager

namespace StudentManager

theorem bump_lookup_self (m : List (String × Nat)) (g : String) :
    lookupN (bump m g) g = some ((lookupN m g).getD 0 + 1) := by
  induction m with
  | nil => simp [bump, lookupN]
  | cons hd tl ih =>
      obtain ⟨k, v⟩ := hd
      by_cases h : k = g <;> simp [bump, h, lookupN, ih]

theorem bump_lookup_ne (m : List (String × Nat)) (g g' : String) (h : g' ≠ g) :
    lookupN (bump m g) g' = lookupN m g' := by
  induction m with
  | nil => simp [bump, lookupN, Ne.symm h]
  | cons hd tl ih =>
      obtain ⟨k, v⟩ := hd
      by_cases h2 : k = g <;> by_cases h3 : k = g' <;>
        simp_all [bump, lookupN]

theorem grade_count_go (l : List StudentR) (m : List (String × Nat)) (g : String) :
    lookupN (l.foldl (fun acc s => bump acc s.grade) m) g =
      match lookupN m g with
      | some v => some (v + l.countP (fun s => s.grade == g))
      | none =>
          if l.countP (fun s => s.grade == g) = 0 then none
          else some (l.countP (fun s => s.grade == g)) := by
  induction l generalizing m with
  | nil => cases hm : lookupN m g <;> simp [hm]
  | cons s rest ih =>
      rw [List.foldl_cons, ih (bump m s.grade)]
      by_cases hg : s.grade = g
      · rw [hg, bump_lookup_self]
        cases hm : lookupN m g <;>
          simp [hm, List.countP_cons, hg, Nat.add_comm, Nat.add_assoc, Nat.add_left_comm]
      · rw [bump_lookup_ne m s.grade g (fun hc => hg hc.symm)]
        cases hm : lookupN m g <;>
          simp [hm, List.countP_cons, hg]

theorem grade_count_lookup (l : List StudentR) (g : String) :
    lookupN (grade_count l) g =
      if 0 < l.countP (fun s => s.grade == g) then
        some (l.countP (fun s => s.grade == g))
      else none := by
  have h := grade_count_go l [] g
  rw [grade_count, h]
  simp only [lookupN]
  rcases Nat.eq_zero_or_pos (l.countP (fun s => s.grade == g)) with hz | hp
  · simp [hz]
  · simp [Nat.pos_iff_ne_zero.mp hp, hp]

end StudentManager

namespace StudentManager

theorem startsWith_iff : ∀ (hay needle : List Char), startsWith hay needle = true ↔ needle <+: hay
  | _, [] => by simp [startsWith]
  | [], b :: bs => by simp [startsWith]
  | a :: as, b :: bs => by
      simp only [startsWith, Bool.and_eq_true, beq_iff_eq, startsWith_iff as bs,
        List.cons_prefix_cons]
      exact ⟨fun h => ⟨h.1.symm, h.2⟩, fun h => ⟨h.1.symm, h.2⟩⟩

theorem containsSub_iff : ∀ (needle hay : List Char), containsSub needle hay = true ↔ needle <:+: hay
  | needle, [] => by
      simp [containsSub, List.infix_nil, List.isEmpty_iff]
  | needle, a :: t => by
      rw [containsSub]
      simp [startsWith_iff, containsSub_iff needle t, List.infix_cons_iff]

theorem add_students_ok_shape (saveOk : Bool) (students : List Obj) (data : Obj)
    (r : Obj) (w : Option (List Obj))
    (h : add_students saveOk students data = (some r, w)) :
    ∃ nid : Int, newId students = .ok nid ∧ r = data.set "id" (JVal.jint nid) := by
  rw [add_students] at h
  cases hcore : add_core students data with
  | error e => rw [hcore] at h; simp at h
  | ok dl =>
      obtain ⟨d, students'⟩ := dl
      rw [hcore] at h
      rw [add_core] at hcore
      cases hfind : required_fields.find? (fun f => (data.get f).isNone) with
      | some f => rw [hfind] at hcore; cases hcore
      | none =>
          rw [hfind] at hcore
          cases hnew : newId students with
          | error e => rw [hnew] at hcore; cases hcore
          | ok nid =>
              rw [hnew] at hcore
              simp only [Except.ok.injEq, Prod.mk.injEq] at hcore
              obtain ⟨hd, hs'⟩ := hcore
              cases saveOk with
              | false => simp at h
              | true =>
                  have h1 : some d = some r := congrArg Prod.fst h
                  obtain rfl : d = r := Option.some.inj h1
                  exact ⟨nid, rfl, hd.symm⟩

end StudentManager

open StudentManager

/-- C1: `update(id, partialData)` merges only the non-null fields of the
payload into the first stored record with that id — a field absent or null
in the payload keeps its stored value — forces the record's id back to the
path id, writes the updated collection, and returns the updated record
exactly when persistence succeeds; it returns `None` when no record has
the id (attempting no write) or when persistence fails. -/
theorem claim_C1_update_partial_merge (saveOk : Bool) (sid : Int) (u : studentUpdate) :
    (∀ (l₁ l₂ : List StudentR) (r : StudentR), r.id = sid → (∀ s ∈ l₁, s.id ≠ sid) →
        update_student saveOk (l₁ ++ r :: l₂) sid u =
          (if saveOk then
              some ⟨sid, u.name.getD r.name, u.age.getD r.age, u.grade.getD r.grade,
                u.subjects.getD r.subjects⟩
            else none,
           some (l₁ ++
             ⟨sid, u.name.getD r.name, u.age.getD r.age, u.grade.getD r.grade,
               u.subjects.getD r.subjects⟩ :: l₂)))
    ∧ (∀ l : List StudentR, (∀ s ∈ l, s.id ≠ sid) →
        update_student saveOk l sid u = (none, none)) := by
  constructor
  · intro l₁ l₂ r hr h₁
    simpa [apply_update] using update_student_found saveOk l₁ l₂ r sid u hr h₁
  · intro l h
    exact update_student_not_found saveOk l sid u h

/-- Witness for C1, the spec's scenario: `update(1, {age: null, grade: "A+"})`
on `[{id 1, Alice, 20, A, [Math]}]` returns the record with age still 20 and
grade "A+". -/
theorem claim_C1_witness :
    update_student true [⟨1, "Alice", 20, "A", ["Math"]⟩] 1
        ⟨none, none, some "A+", none⟩ =
      (some ⟨1, "Alice", 20, "A+", ["Math"]⟩,
       some [⟨1, "Alice", 20, "A+", ["Math"]⟩]) := by
  have h := (claim_C1_update_partial_merge true 1 ⟨none, none, some "A+", none⟩).1
      [] [] ⟨1, "Alice", 20, "A", ["Math"]⟩ rfl (by simp)
  simpa using h

/-- C3 (spec-modelled): `search_by_name` returns, in storage order,
exactly the records whose lowercased name contains the lowercased query as
a contiguous substring; queries equal up to case give equal results. -/
theorem claim_C3_search_case_insensitive (students : List StudentR) (query : String) :
    List.Sublist (search_by_name students query) students
    ∧ (∀ s, s ∈ search_by_name students query ↔
        s ∈ students ∧ lowerStr query <:+: lowerStr s.name)
    ∧ (∀ q2 : String, lowerStr q2 = lowerStr query →
        search_by_name students q2 = search_by_name students query) := by
  refine ⟨List.filter_sublist _, fun s => ?_, fun q2 hq => ?_⟩
  · rw [search_by_name, List.mem_filter, containsSub_iff]
  · simp only [search_by_name, hq]

/-- Witness for C3: searching "LIC" finds "Alice" (case-insensitively), and
the query "lic" gives the same result. -/
theorem claim_C3_witness :
    (⟨1, "Alice", 20, "A", ["Math"]⟩ ∈
        search_by_name [⟨1, "Alice", 20, "A", ["Math"]⟩] "LIC")
    ∧ search_by_name [⟨1, "Alice", 20, "A", ["Math"]⟩] "lic" =
        search_by_name [⟨1, "Alice", 20, "A", ["Math"]⟩] "LIC" := by
  have h := claim_C3_search_case_insensitive [⟨1, "Alice", 20, "A", ["Math"]⟩] "LIC"
  exact ⟨(h.2.1 _).mpr (by refine ⟨by simp, ?_⟩; decide), h.2.2 "lic" (by decide)⟩

/-- C6: `filter_by_age` returns exactly the records with
`min_age ≤ age ≤ max_age` when `max_age` is given and nonzero, and exactly
those with `age ≥ min_age` otherwise; `max_age = 0` is treated as absent
(no upper bound); results keep storage order.  On the two-record example
collection, `filter_by_age 21` gives the age-22 record and
`filter_by_age 18 21` the age-20 record. -/
theorem claim_C6_filter_by_age :
    (∀ (students : List StudentR) (min_age m : Int), m ≠ 0 →
        ∀ s, s ∈ filter_by_age students min_age (some m) ↔
          s ∈ students ∧ min_age ≤ s.age ∧ s.age ≤ m)
    ∧ (∀ (students : List StudentR) (min_age : Int),
        ∀ s, s ∈ filter_by_age students min_age none ↔
          s ∈ students ∧ min_age ≤ s.age)
    ∧ (∀ (students : List StudentR) (min_age : Int) (max_age : Option Int),
        List.Sublist (filter_by_age students min_age max_age) students)
    ∧ (∀ (students : List StudentR) (min_age : Int),
        filter_by_age students min_age (some 0) = filter_by_age students min_age none)
    ∧ filter_by_age [⟨1, "Alice", 20, "A", ["Math"]⟩,
          ⟨2, "Bob", 22, "B", ["Math", "Art"]⟩] 21 none
        = [⟨2, "Bob", 22, "B", ["Math", "Art"]⟩]
    ∧ filter_by_age [⟨1, "Alice", 20, "A", ["Math"]⟩,
          ⟨2, "Bob", 22, "B", ["Math", "Art"]⟩] 18 (some 21)
        = [⟨1, "Alice", 20, "A", ["Math"]⟩] := by
  refine ⟨fun students min_age m hm s => ?_, fun students min_age s => ?_,
    fun students min_age max_age => ?_, fun students min_age => ?_, by decide, by decide⟩
  · simp [filter_by_age, truthy, hm, List.mem_filter, and_assoc]
  · simp [filter_by_age, truthy, List.mem_filter]
  · rw [filter_by_age]
    split <;> exact List.filter_sublist _
  · simp [filter_by_age, truthy]

/-- Witness for C6: instantiating the nonzero-upper-bound clause at the
example collection with bounds 18 and 21 keeps exactly Alice (age 20). -/
theorem claim_C6_witness :
    ⟨1, "Alice", 20, "A", ["Math"]⟩ ∈
      filter_by_age [⟨1, "Alice", 20, "A", ["Math"]⟩,
        ⟨2, "Bob", 22, "B", ["Math", "Art"]⟩] 18 (some 21) := by
  exact (claim_C6_filter_by_age.1 [⟨1, "Alice", 20, "A", ["Math"]⟩,
    ⟨2, "Bob", 22, "B", ["Math", "Art"]⟩] 18 21 (by decide) _).mpr (by decide)

/-- C9: when `delete_student` finds no record with the given id, it returns
`False` and never calls `save_students` — the persisted document is left
exactly as it was. -/
theorem claim_C9_delete_not_found_no_write (saveOk : Bool) (students : List Obj)
    (sid : Int) (h : ∀ s ∈ students, s.get "id" ≠ some (JVal.jint sid)) :
    delete_student saveOk students sid = (false, none) := by
  have hk : ∀ s ∈ students,
      pyIdNe s sid = .error () ∨ pyIdNe s sid = .ok true := by
    intro s hs
    cases hget : s.get "id" with
    | none => exact Or.inl (by simp [pyIdNe, hget])
    | some v =>
        refine Or.inr ?_
        have hv : jeqInt v sid = false := by
          cases v with
          | jint m =>
              have : m ≠ sid := by
                intro hm
                exact h s hs (by rw [hget, hm])
              simp [jeqInt, this]
          | null => rfl
          | jstr a => rfl
          | jarr a => rfl
          | jobj a => rfl
        simp [pyIdNe, hget, hv]
  rcases filterE_keep (fun s => pyIdNe s sid) students hk with hE | hE <;>
    simp [delete_student, hE]

/-- Witness for C9: deleting id 2 from a store holding only id 1 returns
`False` with no write. -/
theorem claim_C9_witness :
    delete_student true [[("id", JVal.jint 1)]] 2 = (false, none) := by
  refine claim_C9_delete_not_found_no_write true [[("id", JVal.jint 1)]] 2 ?_
  intro s hs
  rw [List.mem_singleton] at hs
  subst hs
  simp [Obj.get]

/-- C5: `delete_student` passes the filtered collection to `save_students`
exactly when a removal occurred (the filtered collection is strictly
shorter), returns `True` only in that case (and only when the save
succeeded), and `get_by_id` on the persisted filtered collection finds
nothing under the deleted id. -/
theorem claim_C5_delete_persist_iff_removed (saveOk : Bool) (students : List Obj)
    (sid : Int) (hwf : ∀ s ∈ students, (s.get "id").isSome) :
    ((delete_student saveOk students sid).2 =
        some (students.filter fun s => !((s.get "id").any fun v => jeqInt v sid)) ↔
      (students.filter fun s => !((s.get "id").any fun v => jeqInt v sid)).length
        < students.length)
    ∧ ((delete_student saveOk students sid).1 = true ↔
        ((students.filter fun s => !((s.get "id").any fun v => jeqInt v sid)).length
            < students.length ∧ saveOk = true))
    ∧ get_by_id (students.filter fun s => !((s.get "id").any fun v => jeqInt v sid))
        sid = none := by
  have hfe : filterE (fun s => pyIdNe s sid) students =
      .ok (students.filter fun s => !((s.get "id").any fun v => jeqInt v sid)) := by
    refine filterE_eq_filter _ _ _ ?_
    intro s hs
    rcases Option.isSome_iff_exists.mp (hwf s hs) with ⟨v, hv⟩
    simp [pyIdNe, hv]
  have hget : get_by_id
      (students.filter fun s => !((s.get "id").any fun v => jeqInt v sid)) sid = none := by
    have hfe2 : filterE (fun s => pyIdEq s sid)
        (students.filter fun s => !((s.get "id").any fun v => jeqInt v sid)) =
        .ok ((students.filter fun s => !((s.get "id").any fun v => jeqInt v sid)).filter
          fun _ => false) := by
      refine filterE_eq_filter _ _ _ ?_
      intro s hs
      have hs' := List.mem_filter.mp hs
      rcases Option.isSome_iff_exists.mp (hwf s hs'.1) with ⟨v, hv⟩
      have hq := hs'.2
      rw [hv] at hq
      simp only [Option.any_some, Bool.not_eq_true'] at hq
      simp [pyIdEq, hv, hq]
    simp [get_by_id, hfe2]
  refine ⟨?_, ?_, hget⟩ <;> rw [delete_student, hfe] <;>
    by_cases hlen : (students.filter fun s => !((s.get "id").any fun v => jeqInt v sid)).length
      < students.length <;>
    simp [hlen]

/-- Witness for C5: deleting id 1 from a two-record store writes the
filtered one-record collection, and `get_by_id 1` on it returns `None`. -/
theorem claim_C5_witness :
    (delete_student true [[("id", JVal.jint 1)], [("id", JVal.jint 2)]] 1).2 =
      some ([[("id", JVal.jint 1)], [("id", JVal.jint 2)]].filter
        fun s => !((Obj.get s "id").any fun v => jeqInt v 1)) := by
  have h := claim_C5_delete_persist_iff_removed true
    [[("id", JVal.jint 1)], [("id", JVal.jint 2)]] 1 (by decide)
  exact h.1.mpr (by decide)

/-- C2 counterexample: ids 1 and 2 are assigned by two creates; after
deleting id 2, the next create assigns id 2 again — an id that was
assigned and deleted is reassigned, refuting strict increase across
deletes. -/
theorem claim_C2_counterexample :
    add_students true []
        [("name", JVal.jstr "Ann"), ("age", JVal.jint 20),
         ("grade", JVal.jstr "A"), ("subjects", JVal.jarr [])] =
      (some [("name", JVal.jstr "Ann"), ("age", JVal.jint 20),
             ("grade", JVal.jstr "A"), ("subjects", JVal.jarr []), ("id", JVal.jint 1)],
       some [[("name", JVal.jstr "Ann"), ("age", JVal.jint 20),
              ("grade", JVal.jstr "A"), ("subjects", JVal.jarr []), ("id", JVal.jint 1)]])
    ∧ add_students true
        [[("name", JVal.jstr "Ann"), ("age", JVal.jint 20),
          ("grade", JVal.jstr "A"), ("subjects", JVal.jarr []), ("id", JVal.jint 1)]]
        [("name", JVal.jstr "Bob"), ("age", JVal.jint 22),
         ("grade", JVal.jstr "B"), ("subjects", JVal.jarr [])] =
      (some [("name", JVal.jstr "Bob"), ("age", JVal.jint 22),
             ("grade", JVal.jstr "B"), ("subjects", JVal.jarr []), ("id", JVal.jint 2)],
       some [[("name", JVal.jstr "Ann"), ("age", JVal.jint 20),
              ("grade", JVal.jstr "A"), ("subjects", JVal.jarr []), ("id", JVal.jint 1)],
             [("name", JVal.jstr "Bob"), ("age", JVal.jint 22),
              ("grade", JVal.jstr "B"), ("subjects", JVal.jarr []), ("id", JVal.jint 2)]])
    ∧ delete_student true
        [[("name", JVal.jstr "Ann"), ("age", JVal.jint 20),
          ("grade", JVal.jstr "A"), ("subjects", JVal.jarr []), ("id", JVal.jint 1)],
         [("name", JVal.jstr "Bob"), ("age", JVal.jint 22),
          ("grade", JVal.jstr "B"), ("subjects", JVal.jarr []), ("id", JVal.jint 2)]] 2 =
      (true, some [[("name", JVal.jstr "Ann"), ("age", JVal.jint 20),
                    ("grade", JVal.jstr "A"), ("subjects", JVal.jarr []), ("id", JVal.jint 1)]])
    ∧ (add_students true
        [[("name", JVal.jstr "Ann"), ("age", JVal.jint 20),
          ("grade", JVal.jstr "A"), ("subjects", JVal.jarr []), ("id", JVal.jint 1)]]
        [("name", JVal.jstr "Cara"), ("age", JVal.jint 19),
         ("grade", JVal.jstr "C"), ("subjects", JVal.jarr [])]).1 =
      some [("name", JVal.jstr "Cara"), ("age", JVal.jint 19),
            ("grade", JVal.jstr "C"), ("subjects", JVal.jarr []), ("id", JVal.jint 2)]
    ∧ Obj.get [("name", JVal.jstr "Cara"), ("age", JVal.jint 19),
          ("grade", JVal.jstr "C"), ("subjects", JVal.jarr []), ("id", JVal.jint 2)] "id" =
        some (JVal.jint 2) :=
  ⟨rfl, rfl, rfl, rfl, rfl⟩

/-- C2 amended: each successful create assigns an id strictly greater than
every integer id present in the loaded collection (max + 1, or 1 on an
empty collection), so ids strictly increase across creates with no
intervening delete of the maximal id; a deleted maximal id, however, can be
assigned again (see the counterexample). -/
theorem claim_C2_amended_fresh_id (saveOk : Bool) (students : List Obj) (data : Obj)
    (r : Obj) (w : Option (List Obj))
    (h : add_students saveOk students data = (some r, w)) :
    (students = [] → Obj.get r "id" = some (JVal.jint 1))
    ∧ (∀ s ∈ students, ∀ n m : Int, s.get "id" = some (JVal.jint n) →
        Obj.get r "id" = some (JVal.jint m) → n < m) := by
  obtain ⟨nid, hnew, hr⟩ := add_students_ok_shape saveOk students data r w h
  have hrid : Obj.get r "id" = some (JVal.jint nid) := by
    rw [hr]; exact Obj.get_set_self data "id" (JVal.jint nid)
  constructor
  · intro hempty
    subst hempty
    have h1 : (1 : Int) = nid := Except.ok.inj hnew
    rw [hrid, ← h1]
  · intro s hs n m hn hm
    have hmn : m = nid := by
      have h2 := hm.symm.trans hrid
      exact JVal.jint.inj (Option.some.inj h2)
    cases students with
    | nil => exact absurd hs (List.not_mem_nil s)
    | cons a rest =>
        have hnew2 : (idsOf (a :: rest) >>=
            fun ids => pure ((ids.foldl max (ids.headD 0)) + 1) : Except Unit Int) =
              Except.ok nid := hnew
        cases hids : idsOf (a :: rest) with
        | error e =>
            rw [hids, exceptBind_error] at hnew2
            cases hnew2
        | ok ids =>
            rw [hids, exceptBind_ok] at hnew2
            have hnid : ids.foldl max (ids.headD 0) + 1 = nid := Except.ok.inj hnew2
            have hmem := idsOf_mem (a :: rest) ids hids s hs n hn
            have hle := (le_foldl_max ids (ids.headD 0)).2 n hmem
            omega

/-- Witness for C2 (amended): creating on a store holding id 1 assigns
id 2, and 1 < 2 as the amended claim requires. -/
theorem claim_C2_amended_witness :
    add_students true [[("id", JVal.jint 1)]]
        [("name", JVal.null), ("age", JVal.null), ("grade", JVal.null),
         ("subjects", JVal.null)] =
      (some [("name", JVal.null), ("age", JVal.null), ("grade", JVal.null),
             ("subjects", JVal.null), ("id", JVal.jint 2)],
       some [[("id", JVal.jint 1)],
             [("name", JVal.null), ("age", JVal.null), ("grade", JVal.null),
              ("subjects", JVal.null), ("id", JVal.jint 2)]])
    ∧ (1 : Int) < 2 := by
  refine ⟨rfl, ?_⟩
  have h := (claim_C2_amended_fresh_id true [[("id", JVal.jint 1)]]
      [("name", JVal.null), ("age", JVal.null), ("grade", JVal.null),
       ("subjects", JVal.null)]
      [("name", JVal.null), ("age", JVal.null), ("grade", JVal.null),
       ("subjects", JVal.null), ("id", JVal.jint 2)]
      (some [[("id", JVal.jint 1)],
             [("name", JVal.null), ("age", JVal.null), ("grade", JVal.null),
              ("subjects", JVal.null), ("id", JVal.jint 2)]]) rfl).2
  exact h [("id", JVal.jint 1)] (by simp) 1 2 rfl rfl

/-- C4: `create` fails (returns `None`, with a missing-field validation
error and no write) when any of the four required fields is absent from
the payload; otherwise it assigns id = max existing id + 1 (1 on an empty
collection), appends the record, passes the extended collection to
`save_students`, and returns the new record iff the save succeeded. -/
theorem claim_C4_create_validation_and_id (saveOk : Bool) (students : List Obj)
    (data : Obj) :
    ((∃ f ∈ required_fields, data.get f = none) →
        (∃ f, add_core students data = .error (.missingField f))
        ∧ add_students saveOk students data = (none, none))
    ∧ (∀ ids : List Int, idsOf students = .ok ids →
        (∀ f ∈ required_fields, (data.get f).isSome) →
        add_students saveOk students data =
          (if saveOk then
              some (data.set "id" (JVal.jint
                (if students.isEmpty then 1 else ids.foldl max (ids.headD 0) + 1)))
            else none,
           some (students ++ [data.set "id" (JVal.jint
             (if students.isEmpty then 1 else ids.foldl max (ids.headD 0) + 1))]))) := by
  constructor
  · intro h
    obtain ⟨f, hcore⟩ := add_core_missing students data h
    exact ⟨⟨f, hcore⟩, by simp [add_students, hcore]⟩
  · intro ids hids hpres
    rw [add_students, add_core_ok students data ids hids hpres]

/-- Witness for C4: the spec's scenario — creating Cara on a two-record
collection assigns id 3 and persists a three-record collection; and a
payload missing `subjects` is rejected with no write. -/
theorem claim_C4_witness :
    add_students true
        [[("id", JVal.jint 1)], [("id", JVal.jint 2)]]
        [("name", JVal.jstr "Cara"), ("age", JVal.jint 19),
         ("grade", JVal.jstr "C"), ("subjects", JVal.jarr [])] =
      (some [("name", JVal.jstr "Cara"), ("age", JVal.jint 19),
             ("grade", JVal.jstr "C"), ("subjects", JVal.jarr []), ("id", JVal.jint 3)],
       some [[("id", JVal.jint 1)], [("id", JVal.jint 2)],
             [("name", JVal.jstr "Cara"), ("age", JVal.jint 19),
              ("grade", JVal.jstr "C"), ("subjects", JVal.jarr []), ("id", JVal.jint 3)]])
    ∧ add_students true [] [("name", JVal.jstr "Dee")] = (none, none) := by
  constructor
  · have h := (claim_C4_create_validation_and_id true
        [[("id", JVal.jint 1)], [("id", JVal.jint 2)]]
        [("name", JVal.jstr "Cara"), ("age", JVal.jint 19),
         ("grade", JVal.jstr "C"), ("subjects", JVal.jarr [])]).2
        [1, 2] rfl (by decide)
    exact h.trans rfl
  · have h := (claim_C4_create_validation_and_id true []
        [("name", JVal.jstr "Dee")]).1 ⟨"age", by decide, rfl⟩
    exact h.2

/-- C10: `create`'s validation checks only that the four required keys are
present, never their values: any payload carrying the keys (even with all
values null) passes validation, and the appended record agrees with the
payload on every key other than the assigned `id`. -/
theorem claim_C10_presence_only_validation (saveOk : Bool) (students : List Obj)
    (data : Obj) (ids : List Int) (hids : idsOf students = .ok ids)
    (hpres : ∀ f ∈ required_fields, (data.get f).isSome) :
    (∀ f, add_core students data ≠ .error (.missingField f))
    ∧ ∃ d : Obj, add_students saveOk students data
        = (if saveOk then some d else none, some (students ++ [d]))
      ∧ (∀ k, k ≠ "id" → d.get k = data.get k) := by
  have hcore := add_core_ok students data ids hids hpres
  refine ⟨fun f hc => ?_,
    ⟨data.set "id" (JVal.jint
        (if students.isEmpty then 1 else ids.foldl max (ids.headD 0) + 1)),
      ?_, fun k hk => ?_⟩⟩
  · rw [hcore] at hc; cases hc
  · rw [add_students, hcore]
  · exact Obj.get_set_ne data "id" k _ (fun hne => hk hne.symm)

/-- Witness for C10: the all-null payload passes validation; the stored
record keeps every null value as given and only `id` is added. -/
theorem claim_C10_witness :
    (∀ f, add_core []
        [("name", JVal.null), ("age", JVal.null), ("grade", JVal.null),
         ("subjects", JVal.null)] ≠ .error (.missingField f))
    ∧ ∃ d : Obj, add_students true []
        [("name", JVal.null), ("age", JVal.null), ("grade", JVal.null),
         ("subjects", JVal.null)]
        = (if true then some d else none, some ([] ++ [d]))
      ∧ (∀ k, k ≠ "id" →
          d.get k = Obj.get [("name", JVal.null), ("age", JVal.null),
            ("grade", JVal.null), ("subjects", JVal.null)] k) :=
  claim_C10_presence_only_validation true []
    [("name", JVal.null), ("age", JVal.null), ("grade", JVal.null),
     ("subjects", JVal.null)] [] rfl (by decide)

namespace StudentManager

theorem charsLe_total : ∀ a b : List Char, charsLe a b = true ∨ charsLe b a = true
  | [], b => Or.inl (by cases b <;> simp [charsLe])
  | a :: as, [] => Or.inr (by simp [charsLe])
  | a :: as, b :: bs => by
      rcases Nat.lt_trichotomy a.toNat b.toNat with h | h | h
      · exact Or.inl (by simp [charsLe, h])
      · rcases charsLe_total as bs with h2 | h2
        · exact Or.inl (by simp [charsLe, h, Nat.lt_irrefl, h2])
        · exact Or.inr (by simp [charsLe, h, Nat.lt_irrefl, h2])
      · exact Or.inr (by simp [charsLe, h])

theorem charsLe_trans : ∀ a b c : List Char,
    charsLe a b = true → charsLe b c = true → charsLe a c = true
  | [], b, c => fun _ _ => by simp [charsLe]
  | a :: as, [], c => fun h _ => by simp [charsLe] at h
  | a :: as, b :: bs, [] => fun _ h => by simp [charsLe] at h
  | a :: as, b :: bs, c :: cs => fun h1 h2 => by
      rw [charsLe] at h1 h2 ⊢
      by_cases hab : a.toNat < b.toNat <;> by_cases hba : b.toNat < a.toNat <;>
        by_cases hbc : b.toNat < c.toNat <;> by_cases hcb : c.toNat < b.toNat <;>
          simp only [hab, hba, hbc, hcb, if_true, if_false] at h1 h2 <;>
          [skip; skip; skip; skip; skip; skip; skip; skip; skip; skip; skip; skip;
           skip; skip; skip; skip] <;>
        first
        | omega
        | (have hac : a.toNat < c.toNat := by omega
           simp [hac])
        | (have hac : a.toNat = c.toNat := by omega
           have h3 := charsLe_trans as bs cs h1 h2
           simp [hac, Nat.lt_irrefl, h3])
        | simp_all

end StudentManager

/-- C7: no store operation propagates an exception: `load_students`
returns the empty list with a distinct diagnostic when the document is
absent, unreadable, or lacks the `students` key (or is not an object), and
every operation turns validation failure, a malformed collection, a
not-found id, and a failed save into its benign `None`/`False` result. -/
theorem claim_C7_no_exception_propagates :
    load_students .absent = (JVal.jarr [], .fileNotFound)
    ∧ load_students .unparsable = (JVal.jarr [], .invalidJson)
    ∧ (∀ fields : Obj, Obj.get fields "students" = none →
        load_students (.parsed (JVal.jobj fields)) = (JVal.jarr [], .missingStudentsKey))
    ∧ (∀ v : JVal, (∀ fields : Obj, v ≠ JVal.jobj fields) →
        load_students (.parsed v) = (JVal.jarr [], .unexpected))
    ∧ [LoadDiag.ok, LoadDiag.fileNotFound, LoadDiag.invalidJson,
        LoadDiag.missingStudentsKey, LoadDiag.unexpected].Nodup
    ∧ (∀ (saveOk : Bool) (students : List Obj) (data : Obj) (e : AddErr),
        add_core students data = .error e →
        add_students saveOk students data = (none, none))
    ∧ (∀ (students : List Obj) (data : Obj),
        (add_students false students data).1 = none)
    ∧ (∀ (saveOk : Bool) (students : List Obj) (sid : Int),
        filterE (fun s => pyIdNe s sid) students = .error () →
        delete_student saveOk students sid = (false, none))
    ∧ (∀ (students : List Obj) (sid : Int),
        (delete_student false students sid).1 = false)
    ∧ (∀ (students : List Obj) (sid : Int),
        filterE (fun s => pyIdEq s sid) students = .error () →
        get_by_id students sid = none)
    ∧ (∀ (saveOk : Bool) (l : List StudentR) (sid : Int) (u : studentUpdate),
        (∀ s ∈ l, s.id ≠ sid) → update_student saveOk l sid u = (none, none))
    ∧ (∀ (l : List StudentR) (sid : Int) (u : studentUpdate),
        (update_student false l sid u).1 = none) := by
  refine ⟨rfl, rfl, ?_, ?_, by decide, ?_, ?_, ?_, ?_, ?_, ?_, ?_⟩
  · intro fields h
    simp [load_students, h]
  · intro v h
    cases v with
    | jobj fields => exact absurd rfl (h fields)
    | null => rfl
    | jint n => rfl
    | jstr s => rfl
    | jarr a => rfl
  · intro saveOk students data e h
    simp [add_students, h]
  · intro students data
    cases h : add_core students data with
    | error e => simp [add_students, h]
    | ok dl => obtain ⟨d, s'⟩ := dl; simp [add_students, h]
  · intro saveOk students sid h
    simp [delete_student, h]
  · intro students sid
    cases h : filterE (fun s => pyIdNe s sid) students with
    | error e => simp [delete_student, h]
    | ok filtered =>
        rw [delete_student, h]
        by_cases hlen : filtered.length < students.length <;> simp [hlen]
  · intro students sid h
    simp [get_by_id, h]
  · intro saveOk l sid u h
    exact update_student_not_found saveOk l sid u h
  · intro l sid u
    exact update_student_saveFail l sid u

/-- Witness for C7: a parsed document that is an object without the
`students` key yields the empty list and the missing-key diagnostic. -/
theorem claim_C7_witness :
    load_students (JDoc.parsed (JVal.jobj [("items", JVal.jarr [])])) =
      (JVal.jarr [], LoadDiag.missingStudentsKey) :=
  claim_C7_no_exception_propagates.2.2.1 [("items", JVal.jarr [])] rfl

/-- C8: `get_statistics` returns the record count, the mean age rounded to
two decimal places (0 on an empty collection), a grade-to-count
distribution, and the sorted list of all distinct subjects; on the empty
collection it returns total 0, average 0, empty distribution and empty
subjects — and it is total, never failing. -/
theorem claim_C8_statistics (l : List StudentR) :
    get_statistics [] = ⟨0, 0, [], []⟩
    ∧ (get_statistics l).total_students = l.length
    ∧ (l ≠ [] → (get_statistics l).average_age =
        round2 (((l.map fun s => s.age).sum : ℚ) / (l.length : ℚ)))
    ∧ (∀ g, lookupN (get_statistics l).grade_distribution g =
        if 0 < l.countP (fun s => s.grade == g) then
          some (l.countP (fun s => s.grade == g))
        else none)
    ∧ List.Sorted strLe (get_statistics l).unique_subjects
    ∧ (get_statistics l).unique_subjects.Nodup
    ∧ (∀ subj, subj ∈ (get_statistics l).unique_subjects ↔
        ∃ s ∈ l, subj ∈ s.subjects) := by
  have hgd : (get_statistics l).grade_distribution = grade_count l := by
    cases l with
    | nil => rfl
    | cons a rest => simp [get_statistics]
  have hus : (get_statistics l).unique_subjects =
      List.insertionSort strLe ((l.map (·.subjects)).flatten.dedup) := by
    cases l with
    | nil => rfl
    | cons a rest => simp [get_statistics]
  haveI : IsTotal String strLe := ⟨fun a b => charsLe_total a.data b.data⟩
  haveI : IsTrans String strLe := ⟨fun a b c => charsLe_trans a.data b.data c.data⟩
  refine ⟨rfl, ?_, ?_, ?_, ?_, ?_, ?_⟩
  · cases l with
    | nil => rfl
    | cons a rest => simp [get_statistics]
  · intro h
    have hne : l.isEmpty = false := by
      cases l with
      | nil => exact absurd rfl h
      | cons a rest => rfl
    simp [get_statistics, hne]
  · intro g
    rw [hgd, grade_count_lookup]
  · rw [hus]
    exact List.sorted_insertionSort strLe _
  · rw [hus]
    exact ((List.perm_insertionSort strLe _).nodup_iff).mpr (List.nodup_dedup _)
  · intro subj
    rw [hus, (List.perm_insertionSort strLe _).mem_iff, List.mem_dedup, List.mem_flatten]
    constructor
    · rintro ⟨li, hli, hsub⟩
      obtain ⟨s, hsl, rfl⟩ := List.mem_map.mp hli
      exact ⟨s, hsl, hsub⟩
    · rintro ⟨s, hsl, hsub⟩
      exact ⟨s.subjects, List.mem_map.mpr ⟨s, hsl, rfl⟩, hsub⟩

/-- Witness for C8: on the two-record example collection the mean age is
exactly 21 (instantiating the non-empty average clause). -/
theorem claim_C8_witness :
    (get_statistics [⟨1, "Alice", 20, "A", ["Math"]⟩,
        ⟨2, "Bob", 22, "B", ["Math", "Art"]⟩]).average_age = 21 := by
  have h := (claim_C8_statistics [⟨1, "Alice", 20, "A", ["Math"]⟩,
      ⟨2, "Bob", 22, "B", ["Math", "Art"]⟩]).2.2.1 (by decide)
  rw [h]
  norm_num [round2, roundHalfEven]
